import Mathlib

/-!
Verification of the neural-network visual playground notebook
(`src/visual_playground.ipynb`).

The notebook is a linear pipeline: a fixed two-moons sample set, a model
factory `create_model`, a trainer (`model.fit`), a boundary renderer
`plot_decision_boundary`, and an interactive controller `interactive_nn`
wired to four widgets.  We embed the pipeline shallowly over exact rational
arithmetic.  Calls into external libraries (sklearn's `make_moons`, Keras'
`Model.fit` and weight initialisation, numpy's `arange`/`meshgrid`) are
modelled by computable rational surrogates that keep the documented
structure of those calls (seed-determined output, one recorded loss per
epoch, half-open ranges) while replacing floating-point and transcendental
arithmetic by rational stand-ins.
-/

set_option autoImplicit false

namespace VisualPlayground

/-- A 2-D feature vector, with exact rational coordinates. -/
abbrev Point := ℚ × ℚ

/-- The activation kinds offered by the notebook's dropdown. -/
inductive Activation where
  | relu
  | tanh
  | sigmoid
deriving DecidableEq, Repr

/-- The activation string the widget hands to `interactive_nn` for each kind. -/
def Activation.name : Activation → String
  | .relu => "relu"
  | .tanh => "tanh"
  | .sigmoid => "sigmoid"

/-- Keras resolves the activation string to an activation function and raises
on an unknown name; we model the resolution step as a partial parse. -/
def parseActivation : String → Option Activation
  | "relu" => some .relu
  | "tanh" => some .tanh
  | "sigmoid" => some .sigmoid
  | _ => none

/-- Rational surrogate for the activation functions.  `relu` is exact;
`tanh` and `sigmoid` (transcendental in the library) are replaced by
rational squashing functions with the same range and monotonicity. -/
def actFun : Activation → ℚ → ℚ
  | .relu, x => max x 0
  | .tanh, x => x / (1 + |x|)
  | .sigmoid, x => 1 / 2 + x / (2 * (1 + |x|))

/-- One dense layer of the `Sequential` model: a unit count and an
activation, as passed to `layers.Dense`. -/
structure Dense where
  units : ℕ
  activation : Activation
deriving DecidableEq, Repr

/-- The optimizer family: the notebook always builds `optimizers.Adam`. -/
inductive OptimizerKind where
  | adam
deriving DecidableEq, Repr

/-- The arguments of `model.compile` in `create_model`. -/
structure Compiled where
  optimizer : OptimizerKind
  learning_rate : ℚ
  loss : String
  metrics : List String
deriving DecidableEq, Repr

/-- The model object: the layer stack and compile configuration as built by
`create_model`, plus concrete weights so that `predict` is executable.
Keras draws the initial weights from an unseeded floating-point
initialiser; we model a deterministic initialisation (the spec notes the
source gives no determinism guarantee on weight initialisation, and no
claim depends on the initial values). -/
structure Model where
  layersL : List Dense
  compiled : Compiled
  hiddenW : List (ℚ × ℚ × ℚ)
  outW : List ℚ
  outB : ℚ
deriving DecidableEq, Repr

/-- Modelled deterministic stand-in for Keras' hidden-layer weight
initialisation: one `(w₁, w₂, bias)` triple per hidden unit. -/
def initHiddenW (n : ℕ) : List (ℚ × ℚ × ℚ) :=
  (List.range n).map (fun (i : ℕ) => (((i : ℚ) + 1) / ((n : ℚ) + 1), ((n : ℚ) - (i : ℚ)) / ((n : ℚ) + 1), 0))

/-- `create_model(neurons, activation, lr)`: a `Sequential` of one hidden
dense layer (`neurons` units, the given activation) and one sigmoid output
unit, compiled with `Adam(learning_rate=lr)`, binary cross-entropy loss and
an accuracy metric. -/
def create_model (neurons : ℕ) (activation : Activation) (lr : ℚ) : Model :=
  { layersL := [⟨neurons, activation⟩, ⟨1, .sigmoid⟩]
    compiled := ⟨.adam, lr, "binary_crossentropy", ["accuracy"]⟩
    hiddenW := initHiddenW neurons
    outW := List.replicate neurons (1 / ((neurons : ℚ) + 1))
    outB := 0 }

/-- The architecture-determining part of a model: its layer stack and its
compile configuration. -/
def archOf (m : Model) : List Dense × Compiled :=
  (m.layersL, m.compiled)

/-- Forward pass of the two-layer model at one point (`model.predict` on a
single row), with the rational surrogate activations. -/
def predict (m : Model) (p : Point) : ℚ :=
  let hact := match m.layersL with
    | l :: _ => l.activation
    | [] => .relu
  let hvals := m.hiddenW.map (fun w => actFun hact (w.1 * p.1 + w.2.1 * p.2 + w.2.2))
  let z := (hvals.zip m.outW).foldl (fun acc hw => acc + hw.1 * hw.2) m.outB
  actFun .sigmoid z

/-- The per-epoch scalar loss Keras records.  The library computes a
floating-point binary cross-entropy; we model it by the executable mean
squared error of the surrogate predictions (a rational stand-in, since
`log` is irrational).  No claim depends on the numeric loss values, only
on there being one scalar per completed epoch. -/
def epochLoss (m : Model) (X : List Point) (y : List ℕ) : ℚ :=
  ((X.zip y).foldl (fun acc py => acc + (predict m py.1 - (py.2 : ℚ)) ^ 2) 0) / (max X.length 1 : ℕ)

/-- Modelled single-epoch weight update of `model.fit`.  The real update is
Adam's floating-point gradient step inside TensorFlow; the claims settled
here depend only on the loop structure of `fit`, not on the arithmetic of
the step, so the update is modelled as a fixed executable adjustment of the
output bias driven by the current loss and learning rate. -/
def trainStep (m : Model) (X : List Point) (y : List ℕ) : Model :=
  { m with outB := m.outB - m.compiled.learning_rate * epochLoss m X y }

/-- The trainer's result: `history.history['loss']`, the ordered per-epoch
loss sequence. -/
structure History where
  lossHist : List ℚ
deriving DecidableEq, Repr

/-- Modelled from the documented contract of Keras' `model.fit(X, y,
epochs=epochs, verbose=0)` as the spec states it: full-batch gradient
descent for exactly `epochs` epochs, no validation split, no early
stopping; records one scalar loss per completed epoch, in order. -/
def fit (m : Model) (X : List Point) (y : List ℕ) : ℕ → Model × History
  | 0 => (m, ⟨[]⟩)
  | e + 1 =>
    let m' := trainStep m X y
    let l := epochLoss m' X y
    let rest := fit m' X y e
    (rest.1, ⟨l :: rest.2.lossHist⟩)

/-- `np.arange(start, stop, step)` for a positive rational step: the
half-open arithmetic range `start, start+step, …` of all values below
`stop`; its length is `⌈(stop - start) / step⌉`. -/
def arange (start stop step : ℚ) : List ℚ :=
  (List.range (Int.ceil ((stop - start) / step)).toNat).map (fun (i : ℕ) => start + (i : ℚ) * step)

/-- Minimum of a column, as `X[:, k].min()`: 0 on the empty list, else the
fold of `min` over the entries. -/
def colMin : List ℚ → ℚ
  | [] => 0
  | a :: t => t.foldl min a

/-- Maximum of a column, as `X[:, k].max()`. -/
def colMax : List ℚ → ℚ
  | [] => 0
  | a :: t => t.foldl max a

/-- The two `np.arange` coordinate axes `plot_decision_boundary` builds:
`[min-0.5, max+0.5)` on each feature at step `h = 0.02`. -/
def gridOf (X : List Point) : List ℚ × List ℚ :=
  let h : ℚ := 1 / 50
  let x_min := colMin (X.map Prod.fst) - 1 / 2
  let x_max := colMax (X.map Prod.fst) + 1 / 2
  let y_min := colMin (X.map Prod.snd) - 1 / 2
  let y_max := colMax (X.map Prod.snd) + 1 / 2
  (arange x_min x_max h, arange y_min y_max h)

/-- The raveled mesh grid `np.c_[xx.ravel(), yy.ravel()]`: every pair of an
x-axis coordinate with a y-axis coordinate, row by row. -/
def gridPts (xs ys : List ℚ) : List Point :=
  ys.flatMap (fun b => xs.map (fun a => (a, b)))

/-- The thresholding `(Z > 0.5).astype(int)` applied entrywise. -/
def thresholdClass (z : ℚ) : ℕ :=
  if z > 1 / 2 then 1 else 0

/-- What `plot_decision_boundary` draws on its axes: the grid coordinates,
the binary class map filled by `contourf`, and the scattered sample points
coloured by their true labels. -/
structure RenderOut where
  gridXs : List ℚ
  gridYs : List ℚ
  classMap : List ℕ
  scatterPts : List Point
  scatterColors : List ℕ
deriving DecidableEq, Repr

/-- `plot_decision_boundary(model, X, y, ax)`: build the step-0.02 grid over
`[min-0.5, max+0.5)` on both features, predict at every grid point,
threshold at 0.5 into a binary class map, fill the two regions
(`contourf`), and scatter the original samples coloured by label. -/
def plot_decision_boundary (model : Model) (X : List Point) (y : List ℕ) : RenderOut :=
  let g := gridOf X
  let Z := (gridPts g.1 g.2).map (predict model)
  { gridXs := g.1
    gridYs := g.2
    classMap := Z.map thresholdClass
    scatterPts := X
    scatterColors := y }

/-- The figure `interactive_nn` assembles: the decision-boundary panel and
the loss-curve panel (the plotted series is `history.history['loss']`). -/
structure Figure where
  boundary : RenderOut
  lossCurve : List ℚ
deriving DecidableEq, Repr

/-- The notebook's output area: the currently displayed figure, if any. -/
structure Display where
  shown : Option Figure
deriving DecidableEq, Repr

/-- `interactive_nn(neurons, activation, lr, epochs)`: clear the previous
output, build the model, fit it for `epochs` epochs, render the boundary
and the loss curve, and show the new figure.  The activation string is
resolved by the framework, which raises on an unknown name (modelled as
`Except.error`); the previous display state is discarded
(`clear_output(wait=True)` followed by `plt.show()`). -/
def interactive_nn (neurons : ℕ) (activation : String) (lr : ℚ) (epochs : ℕ)
    (X : List Point) (y : List ℕ) (_prev : Display) : Except String Display :=
  match parseActivation activation with
  | none => .error "Unknown activation"
  | some act =>
    let model := create_model neurons act lr
    let res := fit model X y epochs
    let fig : Figure := ⟨plot_decision_boundary res.1 X y, res.2.lossHist⟩
    .ok ⟨some fig⟩

/-- Modelled linear-congruential pseudo-random value stream standing in for
sklearn's seeded `RandomState`: deterministic in the seed and the draw
index, values in `[-1, 1]`. -/
def noiseAt (seed i : ℕ) : ℚ :=
  (((1103515245 * (seed + i) + 12345) % 2001 : ℕ) : ℚ) / 1000 - 1

/-- Modelled advance of the global RNG state, used only when no
`random_state` is supplied. -/
def lcgNext (s : ℕ) : ℕ :=
  (1103515245 * s + 12345) % 2147483648

/-- Modelled rational surrogate for `cos (π t)` on `t ∈ [0, 1]`. -/
def cosApprox (t : ℚ) : ℚ := 1 - 2 * t

/-- Modelled rational surrogate for `sin (π t)` on `t ∈ [0, 1]`. -/
def sinApprox (t : ℚ) : ℚ := 4 * t * (1 - t)

/-- Modelled `sklearn.datasets.make_moons(n_samples, noise=…,
random_state=…)`: library code outside this repository.  Two interleaving
crescent-shaped clusters of `n/2` and `n - n/2` points with seeded noise;
labels are 0 on the first moon and 1 on the second.  Passing
`random_state = some s` draws every random value from a fresh generator
seeded with `s` and leaves the global generator state untouched; passing
`none` uses and advances the global state.  Trigonometric arcs and gaussian
draws are replaced by rational surrogates. -/
def make_moons (n_samples : ℕ) (noise : ℚ) (random_state : Option ℕ) (globalRng : ℕ) :
    (List Point × List ℕ) × ℕ :=
  let seed := random_state.getD globalRng
  let n_out := n_samples / 2
  let n_in := n_samples - n_out
  let outer := (List.range n_out).map (fun (i : ℕ) =>
    let t : ℚ := if n_out ≤ 1 then 0 else (i : ℚ) / ((n_out : ℚ) - 1)
    (cosApprox t + noise * noiseAt seed (2 * i),
     sinApprox t + noise * noiseAt seed (2 * i + 1)))
  let inner := (List.range n_in).map (fun (i : ℕ) =>
    let t : ℚ := if n_in ≤ 1 then 0 else (i : ℚ) / ((n_in : ℚ) - 1)
    (1 - cosApprox t + noise * noiseAt seed (2 * (n_out + i)),
     1 / 2 - sinApprox t + noise * noiseAt seed (2 * (n_out + i) + 1)))
  ((outer ++ inner, List.replicate n_out 0 ++ List.replicate n_in 1),
   if random_state.isSome then globalRng else lcgNext globalRng)

/-! ## Helper lemmas -/

theorem parse_name (act : Activation) : parseActivation act.name = some act := by
  cases act <;> rfl

theorem fit_loss_length : ∀ (e : ℕ) (m : Model) (X : List Point) (y : List ℕ),
    ((fit m X y e).2.lossHist).length = e
  | 0, _, _, _ => rfl
  | e + 1, m, X, y => by
    simp only [fit, List.length_cons]
    rw [fit_loss_length e]

theorem foldl_min_le (t : List ℚ) (a : ℚ) : t.foldl min a ≤ a := by
  induction t generalizing a with
  | nil => exact le_refl a
  | cons x t ih =>
    exact le_trans (ih (min a x)) (min_le_left a x)

theorem le_foldl_max (t : List ℚ) (a : ℚ) : a ≤ t.foldl max a := by
  induction t generalizing a with
  | nil => exact le_refl a
  | cons x t ih =>
    exact le_trans (le_max_left a x) (ih (max a x))

theorem colMin_le_colMax (l : List ℚ) (h : l ≠ []) : colMin l ≤ colMax l := by
  obtain ⟨a, t, rfl⟩ := List.exists_cons_of_ne_nil h
  exact le_trans (foldl_min_le t a) (le_foldl_max t a)

theorem arange_length (start stop step : ℚ) :
    (arange start stop step).length = (Int.ceil ((stop - start) / step)).toNat := by
  rw [arange, List.length_map, List.length_range]

theorem arange_getElem (start stop step : ℚ) (i : ℕ)
    (hi : i < (arange start stop step).length) :
    (arange start stop step).get ⟨i, hi⟩ = start + (i : ℚ) * step := by
  have hi' : i < (List.range (Int.ceil ((stop - start) / step)).toNat).length := by
    rw [arange_length] at hi
    rwa [List.length_range]
  simp only [arange, List.get_eq_getElem, List.getElem_map, List.getElem_range]

theorem arange_mem_bounds (start stop step : ℚ) (hstep : 0 < step) (g : ℚ)
    (hg : g ∈ arange start stop step) : start ≤ g ∧ g < stop := by
  rw [arange, List.mem_map] at hg
  obtain ⟨i, hi, rfl⟩ := hg
  rw [List.mem_range] at hi
  constructor
  · have h0 : (0 : ℚ) ≤ (i : ℚ) * step :=
      mul_nonneg (Nat.cast_nonneg i) (le_of_lt hstep)
    linarith
  · have hiz : (i : ℤ) < Int.ceil ((stop - start) / step) := Int.lt_toNat.mp hi
    have h1 : (i : ℚ) + 1 ≤ (Int.ceil ((stop - start) / step) : ℚ) := by
      have hle : (i : ℤ) + 1 ≤ Int.ceil ((stop - start) / step) := hiz
      exact_mod_cast hle
    have h2 : ((Int.ceil ((stop - start) / step) : ℤ) : ℚ) < (stop - start) / step + 1 :=
      Int.ceil_lt_add_one ((stop - start) / step)
    have h3 : (i : ℚ) < (stop - start) / step := by linarith
    have h4 : (i : ℚ) * step < stop - start := by
      have hmul := mul_lt_mul_of_pos_right h3 hstep
      rwa [div_mul_cancel₀ _ (ne_of_gt hstep)] at hmul
    linarith

theorem arange_headD (start stop step : ℚ)
    (h : 0 < (arange start stop step).length) :
    (arange start stop step).headD 0 = start := by
  rw [arange_length] at h
  rw [arange]
  obtain ⟨k, hk⟩ : ∃ k, (Int.ceil ((stop - start) / step)).toNat = k + 1 :=
    ⟨_, (Nat.succ_pred_eq_of_pos h).symm⟩
  rw [hk, List.range_succ_eq_map]
  simp

theorem arange_ne_nil (start stop step : ℚ) (h1 : start < stop) (h2 : 0 < step) :
    arange start stop step ≠ [] := by
  have hpos : 0 < (stop - start) / step := div_pos (by linarith) h2
  have hceil : 0 < Int.ceil ((stop - start) / step) := Int.ceil_pos.mpr hpos
  have hlen : 0 < (arange start stop step).length := by
    rw [arange_length]
    omega
  exact List.ne_nil_of_length_pos hlen

/-! ## Claim statements -/

/-- The conclusion of claim C1: the controller call succeeds and the figure's
loss curve (the trainer's loss history) has exactly `epochs` entries. -/
def CompletesWithLoss (neurons : ℕ) (a : String) (lr : ℚ) (epochs : ℕ)
    (X : List Point) (y : List ℕ) (prev : Display) : Prop :=
  ∃ d : Display, interactive_nn neurons a lr epochs X y prev = .ok d ∧
    ∃ f : Figure, d.shown = some f ∧ f.lossCurve.length = epochs

/-- The conclusion of claim C2: the renderer's grid axes are nonempty, start
at `min - 0.5`, advance in steps of exactly `0.02`, and stay within
`[min - 0.5, max + 0.5]`, on both features. -/
def GridBoundsSpec (m : Model) (X : List Point) (y : List ℕ) : Prop :=
  (plot_decision_boundary m X y).gridXs ≠ [] ∧
  (plot_decision_boundary m X y).gridYs ≠ [] ∧
  (plot_decision_boundary m X y).gridXs.headD 0 = colMin (X.map Prod.fst) - 1 / 2 ∧
  (plot_decision_boundary m X y).gridYs.headD 0 = colMin (X.map Prod.snd) - 1 / 2 ∧
  (∀ i : ℕ, ∀ hi : i + 1 < (plot_decision_boundary m X y).gridXs.length,
    (plot_decision_boundary m X y).gridXs.get ⟨i + 1, hi⟩ -
      (plot_decision_boundary m X y).gridXs.get ⟨i, Nat.lt_of_succ_lt hi⟩ = 1 / 50) ∧
  (∀ i : ℕ, ∀ hi : i + 1 < (plot_decision_boundary m X y).gridYs.length,
    (plot_decision_boundary m X y).gridYs.get ⟨i + 1, hi⟩ -
      (plot_decision_boundary m X y).gridYs.get ⟨i, Nat.lt_of_succ_lt hi⟩ = 1 / 50) ∧
  (∀ g ∈ (plot_decision_boundary m X y).gridXs,
    colMin (X.map Prod.fst) - 1 / 2 ≤ g ∧ g ≤ colMax (X.map Prod.fst) + 1 / 2) ∧
  (∀ g ∈ (plot_decision_boundary m X y).gridYs,
    colMin (X.map Prod.snd) - 1 / 2 ≤ g ∧ g ≤ colMax (X.map Prod.snd) + 1 / 2)

/-- The conclusion of claim C5: the class map is the 0.5-thresholded model
prediction over the grid, all its entries are binary, and the scatter
overlay is exactly the original samples coloured by their true labels. -/
def RendererSpec (m : Model) (X : List Point) (y : List ℕ) : Prop :=
  (plot_decision_boundary m X y).classMap =
    ((gridPts (gridOf X).1 (gridOf X).2).map (predict m)).map thresholdClass ∧
  (∀ c ∈ (plot_decision_boundary m X y).classMap, c = 0 ∨ c = 1) ∧
  (plot_decision_boundary m X y).scatterPts = X ∧
  (plot_decision_boundary m X y).scatterColors = y

/-- The conclusion of claim C6: on a parameter change the controller produces
exactly the figure obtained by `create_model` → `fit` →
`plot_decision_boundary`, and the result is independent of whatever was
displayed before (the previous figure is replaced). -/
def ControllerSpec (n : ℕ) (act : Activation) (lr : ℚ) (e : ℕ)
    (X : List Point) (y : List ℕ) (prev prev' : Display) : Prop :=
  interactive_nn n act.name lr e X y prev =
    Except.ok ⟨some ⟨plot_decision_boundary (fit (create_model n act lr) X y e).1 X y,
                    (fit (create_model n act lr) X y e).2.lossHist⟩⟩ ∧
  interactive_nn n act.name lr e X y prev = interactive_nn n act.name lr e X y prev'

/-- The conclusion of claim C7: two runs differing only in the activation
kind agree on the rendered grid axes, and both leave the sample set and its
labels as the scatter overlay unchanged. -/
def ActivationFrameSpec (n : ℕ) (a b : Activation) (lr : ℚ) (e : ℕ)
    (X : List Point) (y : List ℕ) : Prop :=
  (plot_decision_boundary (fit (create_model n a lr) X y e).1 X y).gridXs =
    (plot_decision_boundary (fit (create_model n b lr) X y e).1 X y).gridXs ∧
  (plot_decision_boundary (fit (create_model n a lr) X y e).1 X y).gridYs =
    (plot_decision_boundary (fit (create_model n b lr) X y e).1 X y).gridYs ∧
  (plot_decision_boundary (fit (create_model n a lr) X y e).1 X y).scatterPts = X ∧
  (plot_decision_boundary (fit (create_model n b lr) X y e).1 X y).scatterPts = X ∧
  (plot_decision_boundary (fit (create_model n a lr) X y e).1 X y).scatterColors = y ∧
  (plot_decision_boundary (fit (create_model n b lr) X y e).1 X y).scatterColors = y

/-- The conclusion of claim C9: every grid coordinate lies in the half-open
interval `[min - 0.5, max + 0.5)` on its axis, and the upper bound value
itself is never a grid point. -/
def GridHalfOpenSpec (m : Model) (X : List Point) (y : List ℕ) : Prop :=
  (∀ g ∈ (plot_decision_boundary m X y).gridXs,
    colMin (X.map Prod.fst) - 1 / 2 ≤ g ∧ g < colMax (X.map Prod.fst) + 1 / 2) ∧
  (∀ g ∈ (plot_decision_boundary m X y).gridYs,
    colMin (X.map Prod.snd) - 1 / 2 ≤ g ∧ g < colMax (X.map Prod.snd) + 1 / 2) ∧
  (colMax (X.map Prod.fst) + 1 / 2) ∉ (plot_decision_boundary m X y).gridXs ∧
  (colMax (X.map Prod.snd) + 1 / 2) ∉ (plot_decision_boundary m X y).gridYs

/-- The conclusion of claim C10: the class map is the strict threshold
`Z > 0.5` applied over the grid, a prediction of exactly `0.5` is assigned
class 0, and class 1 is assigned exactly to predictions strictly above
`0.5`. -/
def StrictThresholdSpec (m : Model) (X : List Point) (y : List ℕ) : Prop :=
  (plot_decision_boundary m X y).classMap =
    (gridPts (gridOf X).1 (gridOf X).2).map
      (fun p => if 1 / 2 < predict m p then 1 else 0) ∧
  thresholdClass (1 / 2) = 0 ∧
  (∀ z : ℚ, thresholdClass z = 1 ↔ 1 / 2 < z) ∧
  (∀ z : ℚ, thresholdClass z = 0 ↔ z ≤ 1 / 2)

/-! ## Claim theorems -/

/-- C1: for every valid parameter tuple (neurons in `[2, 20]`, activation in
`{relu, tanh, sigmoid}`, learning rate in `[1e-4, 1e-1]`, epochs a multiple
of 50 in `[50, 500]`), running the pipeline `interactive_nn` completes
without raising and the trainer's loss history is an ordered sequence of
exactly `epochs` scalar elements, one per completed epoch. -/
theorem interactive_nn_valid_completes (n : ℕ) (a : String) (lr : ℚ) (e : ℕ)
    (X : List Point) (y : List ℕ) (prev : Display)
    (_hn : 2 ≤ n ∧ n ≤ 20)
    (ha : a = "relu" ∨ a = "tanh" ∨ a = "sigmoid")
    (_hlr : 1 / 10000 ≤ lr ∧ lr ≤ 1 / 10)
    (_he : 50 ≤ e ∧ e ≤ 500 ∧ e % 50 = 0) :
    CompletesWithLoss n a lr e X y prev := by
  obtain rfl | rfl | rfl := ha <;>
    exact ⟨_, rfl, _, rfl, fit_loss_length e _ X y⟩

theorem interactive_nn_valid_completes_witness :
    ((2 ≤ 4 ∧ 4 ≤ 20) ∧
     ("relu" = "relu" ∨ "relu" = "tanh" ∨ "relu" = "sigmoid") ∧
     ((1 : ℚ) / 10000 ≤ 1 / 100 ∧ (1 : ℚ) / 100 ≤ 1 / 10) ∧
     (50 ≤ 50 ∧ 50 ≤ 500 ∧ 50 % 50 = 0)) ∧
    CompletesWithLoss 4 "relu" (1 / 100) 50 [((0 : ℚ), (0 : ℚ))] [0] ⟨none⟩ :=
  ⟨⟨⟨by decide, by decide⟩, Or.inl rfl,
    ⟨by norm_num, by norm_num⟩, ⟨by decide, by decide, by decide⟩⟩,
   interactive_nn_valid_completes 4 "relu" (1 / 100) 50 [((0 : ℚ), (0 : ℚ))] [0] ⟨none⟩
     ⟨by decide, by decide⟩ (Or.inl rfl) ⟨by norm_num, by norm_num⟩
     ⟨by decide, by decide, by decide⟩⟩

/-- C2: for every nonempty sample set `X`, the grid the boundary renderer
builds has bounds `[min(feature1) - 0.5, max(feature1) + 0.5] ×
[min(feature2) - 0.5, max(feature2) + 0.5]` with fixed step `0.02` on both
axes: the grid axes start at `min - 0.5`, advance by exactly `0.02`, and
all coordinates lie within the stated bounds. -/
theorem grid_bounds_spec (m : Model) (X : List Point) (y : List ℕ)
    (hne : X ≠ []) : GridBoundsSpec m X y := by
  have hx : X.map Prod.fst ≠ [] := by
    simpa using hne
  have hy : X.map Prod.snd ≠ [] := by
    simpa using hne
  have hminx := colMin_le_colMax _ hx
  have hminy := colMin_le_colMax _ hy
  have hltx : colMin (X.map Prod.fst) - 1 / 2 < colMax (X.map Prod.fst) + 1 / 2 := by
    linarith
  have hlty : colMin (X.map Prod.snd) - 1 / 2 < colMax (X.map Prod.snd) + 1 / 2 := by
    linarith
  have hstep : (0 : ℚ) < 1 / 50 := by norm_num
  have hgx : (plot_decision_boundary m X y).gridXs =
      arange (colMin (X.map Prod.fst) - 1 / 2) (colMax (X.map Prod.fst) + 1 / 2) (1 / 50) := rfl
  have hgy : (plot_decision_boundary m X y).gridYs =
      arange (colMin (X.map Prod.snd) - 1 / 2) (colMax (X.map Prod.snd) + 1 / 2) (1 / 50) := rfl
  refine ⟨?_, ?_, ?_, ?_, ?_, ?_, ?_, ?_⟩
  · rw [hgx]
    exact arange_ne_nil _ _ _ hltx hstep
  · rw [hgy]
    exact arange_ne_nil _ _ _ hlty hstep
  · rw [hgx]
    exact arange_headD _ _ _ (List.length_pos.mpr (arange_ne_nil _ _ _ hltx hstep))
  · rw [hgy]
    exact arange_headD _ _ _ (List.length_pos.mpr (arange_ne_nil _ _ _ hlty hstep))
  · intro i hi
    rw [List.get_of_eq hgx, List.get_of_eq hgx, arange_getElem, arange_getElem]
    push_cast
    ring
  · intro i hi
    rw [List.get_of_eq hgy, List.get_of_eq hgy, arange_getElem, arange_getElem]
    push_cast
    ring
  · intro g hg
    rw [hgx] at hg
    have := arange_mem_bounds _ _ _ hstep g hg
    exact ⟨this.1, le_of_lt this.2⟩
  · intro g hg
    rw [hgy] at hg
    have := arange_mem_bounds _ _ _ hstep g hg
    exact ⟨this.1, le_of_lt this.2⟩

theorem grid_bounds_spec_witness :
    ([((0 : ℚ), (0 : ℚ))] ≠ ([] : List Point)) ∧
    GridBoundsSpec (create_model 2 Activation.relu (1 / 100)) [((0 : ℚ), (0 : ℚ))] [0] :=
  ⟨List.cons_ne_nil _ _,
   grid_bounds_spec (create_model 2 Activation.relu (1 / 100)) [((0 : ℚ), (0 : ℚ))] [0]
     (List.cons_ne_nil _ _)⟩

/-- C3: `create_model` returns an untrained classifier whose architecture is
exactly one hidden dense layer of the given width and activation plus one
sigmoid output unit, compiled with an Adam optimizer at the given learning
rate and binary cross-entropy loss; the configuration fully determines the
architecture, which is this fixed function of `(neurons, activation, lr)`. -/
theorem create_model_architecture (n : ℕ) (act : Activation) (lr : ℚ) :
    archOf (create_model n act lr) =
      ([⟨n, act⟩, ⟨1, Activation.sigmoid⟩],
       ⟨OptimizerKind.adam, lr, "binary_crossentropy", ["accuracy"]⟩) := rfl

/-- C4: dataset generation is deterministic: with fixed parameters
(`n_samples = 500`, `noise = 0.2`, `random_state = 42`) the generated
feature and label arrays are identical regardless of the ambient global
random-generator state, so two runs produce identical arrays. -/
theorem make_moons_deterministic (g₁ g₂ : ℕ) :
    (make_moons 500 (1 / 5) (some 42) g₁).1 = (make_moons 500 (1 / 5) (some 42) g₂).1 := rfl

/-- C5: the boundary renderer thresholds the model's grid predictions at
`0.5` into a binary (0/1) class map — the two filled regions — and overlays
the original sample points coloured by their true labels. -/
theorem renderer_threshold_and_overlay (m : Model) (X : List Point) (y : List ℕ) :
    RendererSpec m X y := by
  refine ⟨rfl, ?_, rfl, rfl⟩
  intro c hc
  have : (plot_decision_boundary m X y).classMap =
      ((gridPts (gridOf X).1 (gridOf X).2).map (predict m)).map thresholdClass := rfl
  rw [this, List.mem_map] at hc
  obtain ⟨z, _, rfl⟩ := hc
  unfold thresholdClass
  split
  · right
    rfl
  · left
    rfl

theorem renderer_threshold_and_overlay_witness :
    RendererSpec (create_model 3 Activation.tanh (1 / 10))
      [((1 : ℚ), (2 : ℚ)), ((3 : ℚ), (4 : ℚ))] [0, 1] :=
  renderer_threshold_and_overlay (create_model 3 Activation.tanh (1 / 10))
    [((1 : ℚ), (2 : ℚ)), ((3 : ℚ), (4 : ℚ))] [0, 1]

/-- C6: on every parameter change the controller runs the full pipeline
synchronously in the fixed order `create_model` → `fit` →
`plot_decision_boundary` (the displayed figure is built from exactly that
composition) and replaces the previously displayed figure: the result does
not depend on the prior display state. -/
theorem controller_pipeline (n : ℕ) (act : Activation) (lr : ℚ) (e : ℕ)
    (X : List Point) (y : List ℕ) (prev prev' : Display) :
    ControllerSpec n act lr e X y prev prev' := by
  constructor
  · cases act <;> rfl
  · rfl

theorem controller_pipeline_witness :
    ControllerSpec 5 Activation.sigmoid (1 / 20) 3 [((0 : ℚ), (1 : ℚ))] [1]
      ⟨none⟩ ⟨some ⟨⟨[], [], [], [], []⟩, []⟩⟩ :=
  controller_pipeline 5 Activation.sigmoid (1 / 20) 3 [((0 : ℚ), (1 : ℚ))] [1]
    ⟨none⟩ ⟨some ⟨⟨[], [], [], [], []⟩, []⟩⟩

/-- C7: changing only the activation kind between two otherwise-identical
pipeline runs leaves the sample set and the rendered grid bounds unchanged;
the grid axes computed by the renderer agree across the two runs because
they depend only on the sample set, not on the model. -/
theorem activation_frame (n : ℕ) (a b : Activation) (lr : ℚ) (e : ℕ)
    (X : List Point) (y : List ℕ) :
    ActivationFrameSpec n a b lr e X y :=
  ⟨rfl, rfl, rfl, rfl, rfl, rfl⟩

theorem activation_frame_witness :
    ActivationFrameSpec 4 Activation.relu Activation.tanh (1 / 100) 2
      [((0 : ℚ), (0 : ℚ)), ((1 : ℚ), (1 : ℚ))] [0, 1] :=
  activation_frame 4 Activation.relu Activation.tanh (1 / 100) 2
    [((0 : ℚ), (0 : ℚ)), ((1 : ℚ), (1 : ℚ))] [0, 1]

/-- C9: the renderer's grid coordinates come from a half-open range, so for
every sample set every grid coordinate on each axis is at least
`min(feature) - 0.5` and strictly less than `max(feature) + 0.5`; the upper
bound value `max(feature) + 0.5` itself is never a grid point. -/
theorem grid_halfopen (m : Model) (X : List Point) (y : List ℕ) :
    GridHalfOpenSpec m X y := by
  have hstep : (0 : ℚ) < 1 / 50 := by norm_num
  have hgx : (plot_decision_boundary m X y).gridXs =
      arange (colMin (X.map Prod.fst) - 1 / 2) (colMax (X.map Prod.fst) + 1 / 2) (1 / 50) := rfl
  have hgy : (plot_decision_boundary m X y).gridYs =
      arange (colMin (X.map Prod.snd) - 1 / 2) (colMax (X.map Prod.snd) + 1 / 2) (1 / 50) := rfl
  have hbx : ∀ g ∈ (plot_decision_boundary m X y).gridXs,
      colMin (X.map Prod.fst) - 1 / 2 ≤ g ∧ g < colMax (X.map Prod.fst) + 1 / 2 := by
    intro g hg
    rw [hgx] at hg
    exact arange_mem_bounds _ _ _ hstep g hg
  have hby : ∀ g ∈ (plot_decision_boundary m X y).gridYs,
      colMin (X.map Prod.snd) - 1 / 2 ≤ g ∧ g < colMax (X.map Prod.snd) + 1 / 2 := by
    intro g hg
    rw [hgy] at hg
    exact arange_mem_bounds _ _ _ hstep g hg
  refine ⟨hbx, hby, ?_, ?_⟩
  · intro hmem
    exact absurd (hbx _ hmem).2 (lt_irrefl _)
  · intro hmem
    exact absurd (hby _ hmem).2 (lt_irrefl _)

theorem grid_halfopen_witness :
    GridHalfOpenSpec (create_model 6 Activation.sigmoid (1 / 1000))
      [((2 : ℚ), (3 : ℚ))] [1] :=
  grid_halfopen (create_model 6 Activation.sigmoid (1 / 1000)) [((2 : ℚ), (3 : ℚ))] [1]

/-- C10: the renderer's thresholding is strict (`Z > 0.5`): a grid point
whose predicted probability is exactly `0.5` is assigned class 0, and class
1 is assigned exactly to predictions strictly greater than `0.5`. -/
theorem threshold_strict (m : Model) (X : List Point) (y : List ℕ) :
    StrictThresholdSpec m X y := by
  refine ⟨?_, ?_, ?_, ?_⟩
  · have : (plot_decision_boundary m X y).classMap =
        ((gridPts (gridOf X).1 (gridOf X).2).map (predict m)).map thresholdClass := rfl
    rw [this, List.map_map]
    rfl
  · simp [thresholdClass]
  · intro z
    by_cases hz : 1 / 2 < z
    · simp [thresholdClass, hz]
    · simp [thresholdClass, hz]
  · intro z
    by_cases hz : 1 / 2 < z
    · simp [thresholdClass, hz, not_le.mpr hz]
    · simp [thresholdClass, hz, not_lt.mp hz]

theorem threshold_strict_witness :
    StrictThresholdSpec (create_model 2 Activation.relu (1 / 50))
      [((5 : ℚ), (6 : ℚ))] [0] :=
  threshold_strict (create_model 2 Activation.relu (1 / 50)) [((5 : ℚ), (6 : ℚ))] [0]

end VisualPlayground
